import Mathlib

/-!
A verification development for the SP-registry portion of the `samlidp`
package (`samlidp/service.go`): the `Server`'s durable `Store` keyed by
`/services/{name}`, the in-memory `serviceProviders` index keyed by
entity ID, and the operations `AddService`, `GetServiceProvider`,
`HandleGetService`, `HandlePutService`, `HandleDeleteService` and
`initializeServices`.

Modelling conventions, all faithful to the Go source:
- The durable store is an external collaborator; its contents are an
  association list from full key to stored `Service` record (a
  key-to-value map whose `List` operation enumerates keys in a stable
  order).  Each store call that can fail (Put / Get / Delete / List)
  takes the outcome of that call as an explicit parameter: `none` means
  the call succeeds, `some msg` means it fails with error message `msg`.
  A failed call leaves the durable contents unchanged.
- The in-memory `serviceProviders` Go map is modelled as a function
  `String → Option EntityDescriptor` (Go maps compare extensionally;
  the map has no observable iteration order in this file).
- `saml.EntityDescriptor` is an external type; only its `EntityID`
  field is inspected by this code, the remaining descriptor fields are
  abstracted into an opaque `body` string.
- Logging statements have no observable effect and are dropped.
- HTTP handlers are modelled by the status code they write plus the
  server state they leave behind (204/200 success, 400 client error,
  500 server error); the body written by `HandleGetService` is returned
  as an `Option EntityDescriptor`.
- `getSPMetadata` (the metadata decoder) is not part of this file's
  source; it is passed as a parameter, per the spec's decoder interface
  `decode(byteStream) -> descriptor | ParseError`.
-/

namespace SamlIdp

/-- Model of `saml.EntityDescriptor`: the `EntityID` field plus the rest
of the descriptor abstracted into `body`. -/
structure EntityDescriptor where
  entityID : String
  body : String
  deriving DecidableEq, Repr

/-- `Service` from `service.go`: a configured SP, with its administrative
`Name` and its `Metadata`. -/
structure Service where
  name : String
  metadata : EntityDescriptor
  deriving DecidableEq, Repr

/-- First-match lookup in an association list; models `Store.Get`'s
key-to-value semantics. -/
def lookupA {α : Type} : List (String × α) → String → Option α
  | [], _ => none
  | (k, v) :: rest, key => if key = k then some v else lookupA rest key

/-- `Store.Put`: overwrite the value under `k` in place, or append the
new binding when the key is absent. -/
def storePut {α : Type} : List (String × α) → String → α → List (String × α)
  | [], k, v => [(k, v)]
  | (k', v') :: rest, k, v => if k' = k then (k, v) :: rest else (k', v') :: storePut rest k v

/-- `Store.Delete`: remove the binding under `k`. -/
def storeDelete {α : Type} : List (String × α) → String → List (String × α)
  | [], _ => []
  | (k', v') :: rest, k => if k' = k then storeDelete rest k else (k', v') :: storeDelete rest k

/-- `Store.List pre`: the keys that start with the given path segment, in
the store's order, with the leading segment stripped (the Go code feeds
each listed name back into `fmt.Sprintf("/services/%s", name)`).  The
prefix matching is part of the external store's contract; it is carried
out here on the strings' character lists. -/
def storeList {α : Type} (st : List (String × α)) (pre : String) : List String :=
  (st.filter (fun p => pre.data.isPrefixOf p.1.data)).map
    (fun p => String.mk (p.1.data.drop pre.data.length))

/-- Insert into the `serviceProviders` map: `m[k] = v`. -/
def mapInsert {α : Type} (m : String → Option α) (k : String) (v : α) : String → Option α :=
  fun x => if x = k then some v else m x

/-- Delete from the `serviceProviders` map: `delete(m, k)`. -/
def mapErase {α : Type} (m : String → Option α) (k : String) : String → Option α :=
  fun x => if x = k then none else m x

/-- Left-to-right insertion of a list of bindings into a map. -/
def insList {α : Type} (idx : String → Option α) (ps : List (String × α)) :
    String → Option α :=
  ps.foldl (fun i p => mapInsert i p.1 p.2) idx

/-- The registry-relevant state of `samlidp.Server`: the durable `Store`
and the `serviceProviders` index (guarded in Go by `idpConfigMu`, which
has no effect on the sequential semantics modelled here). -/
structure Server where
  store : List (String × Service)
  serviceProviders : String → Option EntityDescriptor

/-- The key path segment under which services are stored. -/
def servicesPre : String := "/services/"

/-- The storage key of a service name: `fmt.Sprintf("/services/%s", n)`. -/
def svcKey (n : String) : String := servicesPre ++ n

/-- The error message of `AddService`'s validity rejection. -/
def invalidServiceMsg : String := "invalid service"

/-- The error wrapping of a failed `Store.Put` in `AddService`:
`fmt.Errorf("failed to store service: %v", err)`. -/
def storeFailMsg (msg : String) : String := "failed to store service: " ++ msg

/-- The error of `Store.Get` on an absent key. -/
def notFoundMsg : String := "not found"

/-- `Server.AddService`: reject a nil service or an empty
`Metadata.EntityID`; `Store.Put` the record under `/services/{name}`
(`putFail` is the outcome of that store call); on success insert the
metadata into `serviceProviders` under its entity ID. -/
def AddService (s : Server) (service : Option Service) (putFail : Option String) :
    Except String Unit × Server :=
  match service with
  | none => (Except.error invalidServiceMsg, s)
  | some svc =>
    if svc.metadata.entityID = "" then (Except.error invalidServiceMsg, s)
    else
      match putFail with
      | some msg => (Except.error (storeFailMsg msg), s)
      | none =>
        (Except.ok (),
          { store := storePut s.store (svcKey svc.name) svc,
            serviceProviders := mapInsert s.serviceProviders svc.metadata.entityID svc.metadata })

/-- `Server.GetServiceProvider`: read-only lookup of the index;
`none` models the `os.ErrNotExist` return. -/
def GetServiceProvider (s : Server) (serviceProviderID : String) : Option EntityDescriptor :=
  s.serviceProviders serviceProviderID

/-- `Server.HandleGetService`: `Store.Get` on `/services/{id}` (`getFail`
is the outcome of the store call when the key is present; an absent key
is a Get error too) — any error answers 500, success answers 200 with
the record's metadata as body. -/
def HandleGetService (s : Server) (id : String) (getFail : Option String) :
    Nat × Option EntityDescriptor :=
  match getFail with
  | some _ => (500, none)
  | none =>
    match lookupA s.store (svcKey id) with
    | none => (500, none)
    | some service => (200, some service.metadata)

/-- `Server.HandlePutService`: decode the request body with
`getSPMetadata` (400 on decode error, touching nothing); build
`service := Service{}` with `service.Metadata = *metadata` (note the
`Name` field stays empty); `Store.Put` under `/services/{id}` (500 on
store failure, touching nothing); then index the metadata under its
entity ID and answer 204. -/
def HandlePutService (s : Server) (id : String)
    (getSPMetadata : String → Except String EntityDescriptor) (body : String)
    (putFail : Option String) : Nat × Server :=
  match getSPMetadata body with
  | Except.error _ => (400, s)
  | Except.ok metadata =>
    match putFail with
    | some _ => (500, s)
    | none =>
      (204,
        { store := storePut s.store (svcKey id) { name := "", metadata := metadata },
          serviceProviders := mapInsert s.serviceProviders metadata.entityID metadata })

/-- `Server.HandleDeleteService`: `Store.Get` the record by name to learn
its entity ID (500 on any Get error, including an absent key);
`Store.Delete` the key (500 on failure, touching nothing); then remove
the index entry under the record's entity ID and answer 204. -/
def HandleDeleteService (s : Server) (id : String) (getFail : Option String)
    (deleteFail : Option String) : Nat × Server :=
  match getFail with
  | some _ => (500, s)
  | none =>
    match lookupA s.store (svcKey id) with
    | none => (500, s)
    | some service =>
      match deleteFail with
      | some _ => (500, s)
      | none =>
        (204,
          { store := storeDelete s.store (svcKey id),
            serviceProviders := mapErase s.serviceProviders service.metadata.entityID })

/-- The loop body of `initializeServices`: for each listed name,
`Store.Get` the record (`gf name` is the outcome of that call; a
failure aborts the whole loop with that error, as does an absent key)
and insert its metadata into `serviceProviders` under its entity ID. -/
def loadServices (gf : String → Option String) :
    Server → List String → Except String Unit × Server
  | s, [] => (Except.ok (), s)
  | s, name :: rest =>
    match gf name with
    | some msg => (Except.error msg, s)
    | none =>
      match lookupA s.store (svcKey name) with
      | none => (Except.error notFoundMsg, s)
      | some service =>
        loadServices gf
          { s with serviceProviders :=
              mapInsert s.serviceProviders service.metadata.entityID service.metadata }
          rest

/-- `Server.initializeServices`: `Store.List("/services/")` (`listFail`
is the outcome of the listing call), then load every listed service in
the store's listing order. -/
def initializeServices (s : Server) (listFail : Option String)
    (gf : String → Option String) : Except String Unit × Server :=
  match listFail with
  | some msg => (Except.error msg, s)
  | none => loadServices gf s (storeList s.store servicesPre)

/-- The (entityID, metadata) pairs of the records found under the given
names, in order. -/
def pairsOfNames (st : List (String × Service)) (names : List String) :
    List (String × EntityDescriptor) :=
  names.filterMap (fun n =>
    match lookupA st (svcKey n) with
    | some service => some (service.metadata.entityID, service.metadata)
    | none => none)

/-- The (entityID, metadata) pairs of the records in the durable store
under `/services/`, in the store's listing order. -/
def svcPairs (st : List (String × Service)) : List (String × EntityDescriptor) :=
  pairsOfNames st (storeList st servicesPre)

/-- Every record in the durable store has a non-empty entity ID. -/
def StoreValid (st : List (String × Service)) : Prop :=
  ∀ p ∈ st, p.2.metadata.entityID ≠ ""

/-- Every metadata in the index has a non-empty entity ID. -/
def IndexValid (idx : String → Option EntityDescriptor) : Prop :=
  ∀ e m, idx e = some m → m.entityID ≠ ""

/-! ### Helper lemmas about the store and the index -/

theorem lookupA_append {α : Type} (l1 l2 : List (String × α)) (k : String) :
    lookupA (l1 ++ l2) k =
      match lookupA l1 k with
      | some v => some v
      | none => lookupA l2 k := by
  induction l1 with
  | nil => simp [lookupA]
  | cons p rest ih =>
    obtain ⟨k', v'⟩ := p
    by_cases h : k = k' <;> simp [lookupA, h, ih]

theorem lookupA_storePut {α : Type} (l : List (String × α)) (k k' : String) (v : α) :
    lookupA (storePut l k v) k' = if k' = k then some v else lookupA l k' := by
  induction l with
  | nil => simp [storePut, lookupA]
  | cons p rest ih =>
    obtain ⟨k0, v0⟩ := p
    by_cases h : k0 = k
    · subst h
      by_cases h' : k' = k0 <;> simp [storePut, lookupA, h']
    · by_cases h' : k' = k0
      · have hk : ¬ k' = k := fun e => h (h'.symm.trans e)
        simp [storePut, lookupA, h, h', hk]
      · simp [storePut, lookupA, h, h', ih]

theorem lookupA_storeDelete {α : Type} (l : List (String × α)) (k k' : String) :
    lookupA (storeDelete l k) k' = if k' = k then none else lookupA l k' := by
  induction l with
  | nil => simp [storeDelete, lookupA]
  | cons p rest ih =>
    obtain ⟨k0, v0⟩ := p
    by_cases h : k0 = k
    · subst h
      rw [show storeDelete ((k0, v0) :: rest) k0 = storeDelete rest k0 from by
        simp [storeDelete], ih]
      by_cases h' : k' = k0 <;> simp [lookupA, h']
    · by_cases h' : k' = k0
      · have hk : ¬ k' = k := fun e => h (h'.symm.trans e)
        simp [storeDelete, lookupA, h, h', hk]
      · simp [storeDelete, lookupA, h, h', ih]

theorem lookupA_mem {α : Type} (l : List (String × α)) (k : String) (v : α)
    (h : lookupA l k = some v) : (k, v) ∈ l := by
  induction l with
  | nil => simp [lookupA] at h
  | cons p rest ih =>
    obtain ⟨k0, v0⟩ := p
    by_cases hk : k = k0
    · subst hk
      simp [lookupA] at h
      simp [h]
    · simp [lookupA, hk] at h
      exact List.mem_cons_of_mem _ (ih h)

theorem lookupA_eq_some_iff_mem {α : Type} (l : List (String × α))
    (h : (l.map Prod.fst).Nodup) (k : String) (v : α) :
    lookupA l k = some v ↔ (k, v) ∈ l := by
  induction l with
  | nil => simp [lookupA]
  | cons p rest ih =>
    obtain ⟨k0, v0⟩ := p
    simp only [List.map_cons, List.nodup_cons] at h
    by_cases hk : k = k0
    · subst hk
      have hnotin : (k, v) ∉ rest := fun hmem => h.1 (List.mem_map_of_mem Prod.fst hmem)
      show (if k = k then some v0 else lookupA rest k) = some v ↔ (k, v) ∈ (k, v0) :: rest
      rw [if_pos rfl]
      constructor
      · intro hv
        have hv' : v = v0 := (Option.some.inj hv).symm
        subst hv'
        exact List.mem_cons_self _ _
      · intro hmem
        rcases List.mem_cons.mp hmem with he | hmem2
        · injection he with h1 h2
          rw [h2]
        · exact absurd hmem2 hnotin
    · simp [lookupA, hk, ih h.2, Prod.mk.injEq]

theorem insList_apply {α : Type} (ps : List (String × α)) (idx : String → Option α)
    (e : String) :
    insList idx ps e =
      match lookupA ps.reverse e with
      | some v => some v
      | none => idx e := by
  induction ps generalizing idx with
  | nil => simp [insList, lookupA]
  | cons p rest ih =>
    obtain ⟨k, v⟩ := p
    show insList (mapInsert idx k v) rest e = _
    rw [ih, List.reverse_cons, lookupA_append]
    cases hrev : lookupA rest.reverse e
    · by_cases hk : e = k <;> simp [mapInsert, lookupA, hk]
    · simp

theorem loadServices_ok (gf : String → Option String) (names : List String) :
    ∀ s : Server,
    (∀ n ∈ names, gf n = none ∧ (lookupA s.store (svcKey n)).isSome) →
    loadServices gf s names =
      (Except.ok (),
        { s with serviceProviders :=
            insList s.serviceProviders (pairsOfNames s.store names) }) := by
  induction names with
  | nil =>
    intro s _
    simp [loadServices, pairsOfNames, insList]
  | cons n rest ih =>
    intro s h
    obtain ⟨hgf, hsome⟩ := h n (List.mem_cons_self _ _)
    obtain ⟨svc, hsvc⟩ := Option.isSome_iff_exists.mp hsome
    have hrest : ∀ m ∈ rest, gf m = none ∧ (lookupA s.store (svcKey m)).isSome :=
      fun m hm => h m (List.mem_cons_of_mem _ hm)
    simp only [loadServices, hgf, hsvc]
    rw [ih ⟨s.store, mapInsert s.serviceProviders svc.metadata.entityID svc.metadata⟩ hrest]
    simp [pairsOfNames, List.filterMap_cons, hsvc, insList]

theorem loadServices_abort (gf : String → Option String) (msg n : String)
    (l2 : List String) :
    ∀ (l1 : List String) (s : Server),
    (∀ m ∈ l1, gf m = none ∧ (lookupA s.store (svcKey m)).isSome) →
    gf n = some msg →
    (loadServices gf s (l1 ++ n :: l2)).1 = Except.error msg := by
  intro l1
  induction l1 with
  | nil =>
    intro s _ hn
    simp [loadServices, hn]
  | cons m rest ih =>
    intro s h hn
    obtain ⟨hgf, hsome⟩ := h m (List.mem_cons_self _ _)
    obtain ⟨svc, hsvc⟩ := Option.isSome_iff_exists.mp hsome
    simp only [List.cons_append, loadServices, hgf, hsvc]
    exact ih _ (fun x hx => h x (List.mem_cons_of_mem _ hx)) hn

theorem mem_storePut {α : Type} (l : List (String × α)) (k : String) (v : α)
    (p : String × α) (h : p ∈ storePut l k v) : p = (k, v) ∨ p ∈ l := by
  induction l with
  | nil =>
    simp [storePut] at h
    exact Or.inl h
  | cons q rest ih =>
    obtain ⟨k0, v0⟩ := q
    by_cases hk : k0 = k
    · simp [storePut, hk] at h
      rcases h with h | h
      · exact Or.inl (by simp [h])
      · exact Or.inr (List.mem_cons_of_mem _ h)
    · simp only [storePut, if_neg hk, List.mem_cons] at h
      rcases h with h | h
      · exact Or.inr (List.mem_cons.mpr (Or.inl h))
      · rcases ih h with h' | h'
        · exact Or.inl h'
        · exact Or.inr (List.mem_cons_of_mem _ h')

theorem indexValid_mapInsert (idx : String → Option EntityDescriptor) (k : String)
    (v : EntityDescriptor) (h : IndexValid idx) (hv : v.entityID ≠ "") :
    IndexValid (mapInsert idx k v) := by
  intro e m hm
  unfold mapInsert at hm
  split at hm
  · cases hm
    exact hv
  · exact h e m hm

theorem strData_append (s t : String) : (s ++ t).data = s.data ++ t.data := rfl

theorem strExt (a b : String) (h : a.data = b.data) : a = b := by
  cases a
  cases b
  cases h
  rfl

theorem svcKey_inj (a b : String) (h : a ≠ b) : svcKey a ≠ svcKey b := by
  intro he
  apply h
  have h2 := congrArg String.data he
  rw [svcKey, svcKey, strData_append, strData_append] at h2
  exact strExt _ _ (List.append_cancel_left h2)

theorem loadServices_valid (gf : String → Option String) (names : List String) :
    ∀ s : Server, StoreValid s.store → IndexValid s.serviceProviders →
    StoreValid (loadServices gf s names).2.store ∧
    IndexValid (loadServices gf s names).2.serviceProviders := by
  induction names with
  | nil =>
    intro s h1 h2
    exact ⟨h1, h2⟩
  | cons n rest ih =>
    intro s h1 h2
    cases hg : gf n with
    | some msg => simpa [loadServices, hg] using ⟨h1, h2⟩
    | none =>
      cases hl : lookupA s.store (svcKey n) with
      | none => simpa [loadServices, hg, hl] using ⟨h1, h2⟩
      | some svc =>
        simp only [loadServices, hg, hl]
        exact ih _ h1
          (indexValid_mapInsert _ _ _ h2 (h1 _ (lookupA_mem _ _ _ hl)))

/-! ### Concrete sample values used by witnesses and counterexamples -/

/-- A server with an empty store and an empty index (the startup state). -/
def emptyServer : Server := ⟨[], fun _ => none⟩

def acmeName : String := "acme"

def acmeMeta1 : EntityDescriptor := ⟨"E1", "meta-one"⟩

def acmeMeta2 : EntityDescriptor := ⟨"E2", "meta-two"⟩

def acmeSvc1 : Service := ⟨acmeName, acmeMeta1⟩

def acmeSvc2 : Service := ⟨acmeName, acmeMeta2⟩

/-- A service whose metadata carries an empty entity ID. -/
def emptySvc : Service := ⟨acmeName, ⟨"", "no-entity"⟩⟩

def diskFailMsg : String := "disk failure"

/-- A server whose store already holds the acme service, with an empty index. -/
def acmeServer : Server := ⟨[(svcKey acmeName, acmeSvc1)], fun _ => none⟩

/-! ### Claim theorems -/

/-- C7: `register` (`AddService`) with an empty `metadata.entityID` fails
with the invalid-record error (`"invalid service"`) and returns the server
unchanged: neither the durable store nor the in-memory index is modified
by the failed call. -/
theorem register_empty_entityID_invalid (s : Server) (svc : Service)
    (putFail : Option String) (h : svc.metadata.entityID = "") :
    AddService s (some svc) putFail = (Except.error invalidServiceMsg, s) := by
  simp [AddService, h]

/-- Witness for C7 at a concrete input. -/
theorem register_empty_entityID_invalid_witness :
    AddService emptyServer (some emptySvc) none =
      (Except.error invalidServiceMsg, emptyServer) :=
  register_empty_entityID_invalid emptyServer emptySvc none rfl

/-- C3: if the durable-store call of a write operation fails (`Store.Put`
in `AddService`, `Store.Delete` in `HandleDeleteService`), the operation
fails with the storage error (the wrapped store-failure message / an HTTP
500) and the whole server state — in particular the in-memory index — is
left completely unchanged. -/
theorem failed_store_write_leaves_state_unchanged (s : Server) (svc : Service)
    (msg id : String) :
    (svc.metadata.entityID ≠ "" →
      AddService s (some svc) (some msg) = (Except.error (storeFailMsg msg), s)) ∧
    (∀ svc2, lookupA s.store (svcKey id) = some svc2 →
      HandleDeleteService s id none (some msg) = (500, s)) := by
  constructor
  · intro h
    simp [AddService, h]
  · intro svc2 h
    simp [HandleDeleteService, h]

/-- Witness for C3 at a concrete input. -/
theorem failed_store_write_leaves_state_unchanged_witness :
    AddService acmeServer (some acmeSvc2) (some diskFailMsg) =
      (Except.error (storeFailMsg diskFailMsg), acmeServer) ∧
    HandleDeleteService acmeServer acmeName none (some diskFailMsg) =
      (500, acmeServer) :=
  ⟨(failed_store_write_leaves_state_unchanged acmeServer acmeSvc2 diskFailMsg acmeName).1
      (by decide),
   (failed_store_write_leaves_state_unchanged acmeServer acmeSvc2 diskFailMsg acmeName).2
      acmeSvc1 (by decide)⟩

/-- C4: after a successful `register(name, metadata)` with a non-empty
entity ID, `lookupByEntityID(metadata.entityID)` (`GetServiceProvider`)
returns that metadata, and reading by name (`Store.Get` on
`/services/{name}`, as `HandleGetService` does) returns the same record. -/
theorem register_then_lookup_and_get (s : Server) (svc : Service)
    (h : svc.metadata.entityID ≠ "") :
    (AddService s (some svc) none).1 = Except.ok () ∧
    GetServiceProvider (AddService s (some svc) none).2 svc.metadata.entityID =
      some svc.metadata ∧
    lookupA (AddService s (some svc) none).2.store (svcKey svc.name) = some svc ∧
    HandleGetService (AddService s (some svc) none).2 svc.name none =
      (200, some svc.metadata) := by
  simp [AddService, h, GetServiceProvider, mapInsert, HandleGetService, lookupA_storePut]

/-- Witness for C4 at a concrete input. -/
theorem register_then_lookup_and_get_witness :
    (AddService emptyServer (some acmeSvc1) none).1 = Except.ok () ∧
    GetServiceProvider (AddService emptyServer (some acmeSvc1) none).2
      acmeSvc1.metadata.entityID = some acmeSvc1.metadata ∧
    lookupA (AddService emptyServer (some acmeSvc1) none).2.store
      (svcKey acmeSvc1.name) = some acmeSvc1 ∧
    HandleGetService (AddService emptyServer (some acmeSvc1) none).2
      acmeSvc1.name none = (200, some acmeSvc1.metadata) :=
  register_then_lookup_and_get emptyServer acmeSvc1 (by decide)

/-- C5: after a successful `unregister(name)` (`HandleDeleteService`
answering 204), reading by name finds no record (an absent key: the Get
error / 500 response), and `lookupByEntityID` of the entity ID that was
stored under that name returns NotFound — the delete removes both the
durable record and its index entry. -/
theorem delete_removes_both_views (s : Server) (id : String) (svc : Service)
    (h : lookupA s.store (svcKey id) = some svc) :
    (HandleDeleteService s id none none).1 = 204 ∧
    lookupA (HandleDeleteService s id none none).2.store (svcKey id) = none ∧
    HandleGetService (HandleDeleteService s id none none).2 id none = (500, none) ∧
    GetServiceProvider (HandleDeleteService s id none none).2
      svc.metadata.entityID = none := by
  simp [HandleDeleteService, h, HandleGetService, GetServiceProvider, mapErase,
    lookupA_storeDelete]

/-- Witness for C5 at a concrete input. -/
theorem delete_removes_both_views_witness :
    (HandleDeleteService acmeServer acmeName none none).1 = 204 ∧
    lookupA (HandleDeleteService acmeServer acmeName none none).2.store
      (svcKey acmeName) = none ∧
    HandleGetService (HandleDeleteService acmeServer acmeName none none).2
      acmeName none = (500, none) ∧
    GetServiceProvider (HandleDeleteService acmeServer acmeName none none).2
      acmeSvc1.metadata.entityID = none :=
  delete_removes_both_views acmeServer acmeName acmeSvc1 (by decide)

/-- A decoder result that rejects every document, for the C9 witness. -/
def parseFailMsg : String := "expected element type EntityDescriptor"

def rejectingDecoder : String → Except String EntityDescriptor :=
  fun _ => Except.error parseFailMsg

def rawDoc : String := "<not-metadata/>"

/-- C9: `HandlePutService` (PUT of a service) on a raw document that the
metadata decoder rejects answers 400 (the client-side decode-error
response) and leaves the server — durable store and in-memory index —
completely untouched. -/
theorem putService_decode_error_untouched (s : Server) (id : String)
    (dec : String → Except String EntityDescriptor) (body msg : String)
    (putFail : Option String) (h : dec body = Except.error msg) :
    HandlePutService s id dec body putFail = (400, s) := by
  simp [HandlePutService, h]

/-- Witness for C9 at a concrete input. -/
theorem putService_decode_error_untouched_witness :
    HandlePutService acmeServer acmeName rejectingDecoder rawDoc none =
      (400, acmeServer) :=
  putService_decode_error_untouched acmeServer acmeName rejectingDecoder rawDoc
    parseFailMsg none rfl

/-- C1 is refuted by the code — evaluation at the failing input: register
name `"acme"` with entity ID `"E1"`, then register name `"acme"` again
(successfully) with entity ID `"E2"`.  The update path never deletes the
old entity-ID index entry, so `lookupByEntityID("E1")` still returns the
OLD metadata (the claim requires NotFound); `lookupByEntityID("E2")`
returns the new metadata and the store holds only the new record. -/
theorem update_leaves_stale_entityID_entry :
    (AddService (AddService emptyServer (some acmeSvc1) none).2
        (some acmeSvc2) none).1 = Except.ok () ∧
    GetServiceProvider
      (AddService (AddService emptyServer (some acmeSvc1) none).2
        (some acmeSvc2) none).2 acmeMeta1.entityID = some acmeMeta1 ∧
    GetServiceProvider
      (AddService (AddService emptyServer (some acmeSvc1) none).2
        (some acmeSvc2) none).2 acmeMeta2.entityID = some acmeMeta2 ∧
    lookupA
      (AddService (AddService emptyServer (some acmeSvc1) none).2
        (some acmeSvc2) none).2.store (svcKey acmeName) = some acmeSvc2 :=
  ⟨rfl, by decide, by decide, by decide⟩

/-- The metadata decoder of the C2 counterexample: per the spec's decoder
interface (`decode(byteStream) -> descriptor | ParseError`) a well-formed
document whose `entityID` attribute is the empty string decodes
successfully into a descriptor with an empty entity ID. -/
def acceptedEmptyMeta : EntityDescriptor := ⟨"", "sp-descriptor"⟩

def acceptingDecoder : String → Except String EntityDescriptor :=
  fun _ => Except.ok acceptedEmptyMeta

/-- C2, counterexample: the claim fails on the put path.  `HandlePutService`
performs no entity-ID check (unlike `AddService`), so a decoded document
with an empty entity ID IS written to the durable store and inserted into
the in-memory index by a successful (204) put. -/
theorem putService_stores_empty_entityID :
    (HandlePutService emptyServer acmeName acceptingDecoder rawDoc none).1 = 204 ∧
    lookupA
      (HandlePutService emptyServer acmeName acceptingDecoder rawDoc none).2.store
      (svcKey acmeName) = some ⟨"", acceptedEmptyMeta⟩ ∧
    GetServiceProvider
      (HandlePutService emptyServer acmeName acceptingDecoder rawDoc none).2
      acceptedEmptyMeta.entityID = some acceptedEmptyMeta := by
  decide

/-- C2 as amended: the non-empty-entity-ID invariant is enforced by
`register` (`AddService`) and preserved by `reload`
(`initializeServices`): starting from a server whose store and index
contain only records with non-empty entity IDs, both operations — with
any inputs and any store-call outcomes — leave the store and the index
free of empty-entity-ID records.  (The put path, `HandlePutService`,
does not enforce the invariant; see the counterexample.) -/
theorem addService_reload_preserve_nonempty_entityID (s : Server)
    (service : Option Service) (putFail listFail : Option String)
    (gf : String → Option String)
    (h1 : StoreValid s.store) (h2 : IndexValid s.serviceProviders) :
    (StoreValid (AddService s service putFail).2.store ∧
      IndexValid (AddService s service putFail).2.serviceProviders) ∧
    (StoreValid (initializeServices s listFail gf).2.store ∧
      IndexValid (initializeServices s listFail gf).2.serviceProviders) := by
  constructor
  · cases service with
    | none => exact ⟨h1, h2⟩
    | some svc =>
      by_cases h : svc.metadata.entityID = ""
      · simpa [AddService, h] using ⟨h1, h2⟩
      · cases putFail with
        | some msg => simpa [AddService, h] using ⟨h1, h2⟩
        | none =>
          simp only [AddService, if_neg h]
          refine ⟨fun p hp => ?_, indexValid_mapInsert _ _ _ h2 h⟩
          rcases mem_storePut _ _ _ _ hp with rfl | hmem
          · exact h
          · exact h1 p hmem
  · cases listFail with
    | some msg => simpa [initializeServices] using ⟨h1, h2⟩
    | none =>
      simp only [initializeServices]
      exact loadServices_valid gf _ s h1 h2

/-- Witness for the amended C2 at a concrete input. -/
theorem addService_reload_preserve_nonempty_entityID_witness :
    (StoreValid (AddService emptyServer (some acmeSvc1) none).2.store ∧
      IndexValid (AddService emptyServer (some acmeSvc1) none).2.serviceProviders) ∧
    (StoreValid (initializeServices emptyServer none (fun _ => none)).2.store ∧
      IndexValid
        (initializeServices emptyServer none (fun _ => none)).2.serviceProviders) :=
  addService_reload_preserve_nonempty_entityID emptyServer (some acmeSvc1) none none
    (fun _ => none)
    (fun p hp => absurd hp (List.not_mem_nil p))
    (fun _ _ hm => Option.noConfusion hm)

/-- C10: when two services with distinct names are registered carrying the
same (non-empty) entity ID, the index holds a single entry for that entity
ID, and a successful delete of either name removes it: afterwards
`lookupByEntityID(entityID)` returns NotFound, even though the other
name's record is still present in the durable store. -/
theorem shared_entityID_delete_removes_index_entry (s : Server) (n1 n2 : String)
    (m : EntityDescriptor) (hne : n1 ≠ n2) (hm : m.entityID ≠ "") :
    ((HandleDeleteService
        (AddService (AddService s (some ⟨n1, m⟩) none).2 (some ⟨n2, m⟩) none).2
        n1 none none).1 = 204 ∧
      GetServiceProvider
        (HandleDeleteService
          (AddService (AddService s (some ⟨n1, m⟩) none).2 (some ⟨n2, m⟩) none).2
          n1 none none).2 m.entityID = none ∧
      lookupA
        (HandleDeleteService
          (AddService (AddService s (some ⟨n1, m⟩) none).2 (some ⟨n2, m⟩) none).2
          n1 none none).2.store (svcKey n2) = some ⟨n2, m⟩) ∧
    ((HandleDeleteService
        (AddService (AddService s (some ⟨n1, m⟩) none).2 (some ⟨n2, m⟩) none).2
        n2 none none).1 = 204 ∧
      GetServiceProvider
        (HandleDeleteService
          (AddService (AddService s (some ⟨n1, m⟩) none).2 (some ⟨n2, m⟩) none).2
          n2 none none).2 m.entityID = none ∧
      lookupA
        (HandleDeleteService
          (AddService (AddService s (some ⟨n1, m⟩) none).2 (some ⟨n2, m⟩) none).2
          n2 none none).2.store (svcKey n1) = some ⟨n1, m⟩) := by
  have hk : svcKey n1 ≠ svcKey n2 := svcKey_inj n1 n2 hne
  have hk' : svcKey n2 ≠ svcKey n1 := fun e => hk e.symm
  have hs2 : (AddService (AddService s (some ⟨n1, m⟩) none).2 (some ⟨n2, m⟩) none).2 =
      { store := storePut (storePut s.store (svcKey n1) ⟨n1, m⟩) (svcKey n2) ⟨n2, m⟩,
        serviceProviders :=
          mapInsert (mapInsert s.serviceProviders m.entityID m) m.entityID m } := by
    simp [AddService, hm]
  rw [hs2]
  constructor
  · have hget : lookupA
        (storePut (storePut s.store (svcKey n1) ⟨n1, m⟩) (svcKey n2) ⟨n2, m⟩)
        (svcKey n1) = some ⟨n1, m⟩ := by
      rw [lookupA_storePut, if_neg hk, lookupA_storePut, if_pos rfl]
    simp only [HandleDeleteService, hget]
    refine ⟨by trivial, ?_, ?_⟩
    · simp [GetServiceProvider, mapErase]
    · show lookupA (storeDelete _ (svcKey n1)) (svcKey n2) = _
      rw [lookupA_storeDelete, if_neg hk', lookupA_storePut, if_pos rfl]
  · have hget2 : lookupA
        (storePut (storePut s.store (svcKey n1) ⟨n1, m⟩) (svcKey n2) ⟨n2, m⟩)
        (svcKey n2) = some ⟨n2, m⟩ := by
      rw [lookupA_storePut, if_pos rfl]
    simp only [HandleDeleteService, hget2]
    refine ⟨by trivial, ?_, ?_⟩
    · simp [GetServiceProvider, mapErase]
    · show lookupA (storeDelete _ (svcKey n2)) (svcKey n1) = _
      rw [lookupA_storeDelete, if_neg hk, lookupA_storePut, if_neg hk,
        lookupA_storePut, if_pos rfl]

def aName : String := "a"

def bName : String := "b"

/-- Witness for C10 at a concrete input. -/
theorem shared_entityID_delete_removes_index_entry_witness :
    ((HandleDeleteService
        (AddService (AddService emptyServer (some ⟨aName, acmeMeta1⟩) none).2
          (some ⟨bName, acmeMeta1⟩) none).2 aName none none).1 = 204 ∧
      GetServiceProvider
        (HandleDeleteService
          (AddService (AddService emptyServer (some ⟨aName, acmeMeta1⟩) none).2
            (some ⟨bName, acmeMeta1⟩) none).2 aName none none).2
        acmeMeta1.entityID = none ∧
      lookupA
        (HandleDeleteService
          (AddService (AddService emptyServer (some ⟨aName, acmeMeta1⟩) none).2
            (some ⟨bName, acmeMeta1⟩) none).2 aName none none).2.store
        (svcKey bName) = some ⟨bName, acmeMeta1⟩) ∧
    ((HandleDeleteService
        (AddService (AddService emptyServer (some ⟨aName, acmeMeta1⟩) none).2
          (some ⟨bName, acmeMeta1⟩) none).2 bName none none).1 = 204 ∧
      GetServiceProvider
        (HandleDeleteService
          (AddService (AddService emptyServer (some ⟨aName, acmeMeta1⟩) none).2
            (some ⟨bName, acmeMeta1⟩) none).2 bName none none).2
        acmeMeta1.entityID = none ∧
      lookupA
        (HandleDeleteService
          (AddService (AddService emptyServer (some ⟨aName, acmeMeta1⟩) none).2
            (some ⟨bName, acmeMeta1⟩) none).2 bName none none).2.store
        (svcKey aName) = some ⟨aName, acmeMeta1⟩) :=
  shared_entityID_delete_removes_index_entry emptyServer aName bName acmeMeta1
    (by decide) (by decide)

/-- C6: `initializeServices` lists all names under `/services/` and
processes them in the store's listing order.  If reading any single
entry fails, the entire reload aborts with that entry's error (shown for
the first failing entry in listing order).  If every entry succeeds,
then — starting from the empty startup index and under the spec's global
uniqueness of entity IDs across records — the resulting index holds
exactly the (entityID, metadata) pairs of the records in the durable
store under `/services/`. -/
theorem reload_order_abort_and_exact_mirror (s : Server)
    (gf : String → Option String) (msg n : String) (l1 l2 : List String) :
    (storeList s.store servicesPre = l1 ++ n :: l2 →
      (∀ x ∈ l1, gf x = none ∧ (lookupA s.store (svcKey x)).isSome = true) →
      gf n = some msg →
      (initializeServices s none gf).1 = Except.error msg) ∧
    ((∀ x ∈ storeList s.store servicesPre,
        gf x = none ∧ (lookupA s.store (svcKey x)).isSome = true) →
      s.serviceProviders = (fun _ => none) →
      ((svcPairs s.store).map Prod.fst).Nodup →
      (initializeServices s none gf).1 = Except.ok () ∧
      ∀ e m0, (initializeServices s none gf).2.serviceProviders e = some m0 ↔
        (e, m0) ∈ svcPairs s.store) := by
  constructor
  · intro hlist h hn
    simp only [initializeServices]
    rw [hlist]
    exact loadServices_abort gf msg n l2 l1 s h hn
  · intro h hemp hnd
    have hok : initializeServices s none gf =
        (Except.ok (), Server.mk s.store
          (insList s.serviceProviders (svcPairs s.store))) :=
      loadServices_ok gf (storeList s.store servicesPre) s h
    rw [hok]
    refine ⟨rfl, ?_⟩
    intro e m0
    show insList s.serviceProviders (svcPairs s.store) e = some m0 ↔
      (e, m0) ∈ svcPairs s.store
    rw [hemp, insList_apply]
    have hnd' : (((svcPairs s.store).reverse).map Prod.fst).Nodup := by
      rw [List.map_reverse]
      exact List.nodup_reverse.mpr hnd
    have hiff : ∀ v, lookupA (svcPairs s.store).reverse e = some v ↔
        (e, v) ∈ svcPairs s.store := by
      intro v
      rw [lookupA_eq_some_iff_mem _ hnd' e v, List.mem_reverse]
    cases hrev : lookupA (svcPairs s.store).reverse e with
    | none =>
      constructor
      · intro h'
        exact absurd h' (by simp)
      · intro hmem
        have h2 := (hiff m0).mpr hmem
        rw [hrev] at h2
        exact Option.noConfusion h2
    | some v =>
      constructor
      · intro h'
        have hv : v = m0 := Option.some.inj h'
        subst hv
        exact (hiff v).mp hrev
      · intro hmem
        have h2 := (hiff m0).mpr hmem
        rw [hrev] at h2
        exact h2

/-- A store-call oracle that fails every Get, for the C6 witness. -/
def failingOracle : String → Option String := fun _ => some diskFailMsg

/-- A server holding two services with distinct entity IDs, for the C6
and C8 witnesses. -/
def twoServer : Server :=
  ⟨[(svcKey aName, ⟨aName, acmeMeta1⟩), (svcKey bName, ⟨bName, acmeMeta2⟩)],
    fun _ => none⟩

/-- Witness for C6 at concrete inputs: one aborting reload and one fully
successful reload. -/
theorem reload_order_abort_and_exact_mirror_witness :
    (initializeServices acmeServer none failingOracle).1 =
      Except.error diskFailMsg ∧
    ((initializeServices twoServer none (fun _ => none)).1 = Except.ok () ∧
      ∀ e m0,
        (initializeServices twoServer none (fun _ => none)).2.serviceProviders e =
          some m0 ↔ (e, m0) ∈ svcPairs twoServer.store) :=
  ⟨(reload_order_abort_and_exact_mirror acmeServer failingOracle diskFailMsg
      acmeName [] []).1 (by decide) (by decide) rfl,
   (reload_order_abort_and_exact_mirror twoServer (fun _ => none) diskFailMsg
      acmeName [] []).2 (by decide) rfl (by decide)⟩

/-- C8: calling `initializeServices` twice in succession on the same
durable set (no intervening writes, same store-call outcomes) is
idempotent: both calls succeed, and the server state — store and index —
after the second call equals the state after the first call. -/
theorem reload_idempotent (s : Server) (gf : String → Option String)
    (h : ∀ x ∈ storeList s.store servicesPre,
      gf x = none ∧ (lookupA s.store (svcKey x)).isSome = true) :
    (initializeServices s none gf).1 = Except.ok () ∧
    (initializeServices (initializeServices s none gf).2 none gf).1 =
      Except.ok () ∧
    (initializeServices (initializeServices s none gf).2 none gf).2 =
      (initializeServices s none gf).2 := by
  have hfst : initializeServices s none gf =
      (Except.ok (), Server.mk s.store
        (insList s.serviceProviders (svcPairs s.store))) :=
    loadServices_ok gf (storeList s.store servicesPre) s h
  have hsnd : initializeServices
      (Server.mk s.store (insList s.serviceProviders (svcPairs s.store))) none gf =
      (Except.ok (), Server.mk s.store
        (insList (insList s.serviceProviders (svcPairs s.store))
          (svcPairs s.store))) :=
    loadServices_ok gf (storeList s.store servicesPre)
      (Server.mk s.store (insList s.serviceProviders (svcPairs s.store))) h
  have hidem : insList (insList s.serviceProviders (svcPairs s.store))
      (svcPairs s.store) = insList s.serviceProviders (svcPairs s.store) := by
    funext e
    rw [insList_apply (svcPairs s.store)
        (insList s.serviceProviders (svcPairs s.store)) e,
      insList_apply (svcPairs s.store) s.serviceProviders e]
    cases hrev : lookupA (svcPairs s.store).reverse e <;> rfl
  rw [hfst]
  refine ⟨rfl, ?_, ?_⟩
  · show (initializeServices
      (Server.mk s.store (insList s.serviceProviders (svcPairs s.store))) none gf).1 =
      Except.ok ()
    rw [hsnd]
  · show (initializeServices
      (Server.mk s.store (insList s.serviceProviders (svcPairs s.store))) none gf).2 =
      Server.mk s.store (insList s.serviceProviders (svcPairs s.store))
    rw [hsnd]
    show Server.mk s.store (insList (insList s.serviceProviders (svcPairs s.store))
      (svcPairs s.store)) = _
    rw [hidem]

/-- Witness for C8 at a concrete input. -/
theorem reload_idempotent_witness :
    (initializeServices twoServer none (fun _ => none)).1 = Except.ok () ∧
    (initializeServices (initializeServices twoServer none (fun _ => none)).2 none
      (fun _ => none)).1 = Except.ok () ∧
    (initializeServices (initializeServices twoServer none (fun _ => none)).2 none
      (fun _ => none)).2 = (initializeServices twoServer none (fun _ => none)).2 :=
  reload_idempotent twoServer (fun _ => none) (by decide)

end SamlIdp
